import Mathlib

/-!
# Verification of the practice-session timer and progression logic

Shallow embedding of the `PracticeSession` / `PracticeResponse` model
(`practice/models.py`) and the `practice_session` / `practice_start` views
(`practice/views.py`) of the Smart-Interview-Practice-Platform repository.

Timestamps are modelled as integers (epoch seconds, one `now` per request);
Django datetime fields carry sub-second precision but every quantity the
claims speak about is computed at whole-second granularity
(`int(...total_seconds())`).
-/

namespace Practice

/-- `PracticeSession` row (practice/models.py lines 53-90).  `started_at`,
`ended_at`, `paused_at` are epoch seconds; `time_limit_minutes` is the
nullable positive-integer field; `total_paused_seconds` is kept as `Int`
because the Python code updates it with ordinary integer arithmetic. -/
structure PracticeSession where
  started_at : Int
  time_limit_minutes : Option Nat
  ended_at : Option Int
  paused_at : Option Int
  total_paused_seconds : Int
  timer_enabled : Bool
deriving DecidableEq, Repr

/-- `PracticeResponse` row (practice/models.py lines 134-157), restricted to
one session: the question id, the response text and the nullable 1-5
self-rating. -/
structure PracticeResponse where
  question : Nat
  response_text : String
  self_rating : Option Nat
deriving DecidableEq, Repr

/-- One session together with its question set (question ids in the fixed
`['order', 'pk']` order) and its responses (in `pk` order). -/
structure SessionState where
  questions : List Nat
  responses : List PracticeResponse
  sess : PracticeSession
deriving DecidableEq, Repr

/-- Python truthiness of a nullable positive integer: `None` and `0` are
falsy (`if not self.time_limit_minutes`). -/
def truthy : Option Nat → Bool
  | none => false
  | some n => n ≠ 0

/-- `PracticeSession.end_time` (models.py lines 112-117): deadline
`started_at + time_limit_minutes·60 + total_paused_seconds`, or `None`
when no (truthy) time limit is configured. -/
def PracticeSession.end_time (s : PracticeSession) : Option Int :=
  if truthy s.time_limit_minutes then
    some (s.started_at + 60 * (s.time_limit_minutes.getD 0 : Int) + s.total_paused_seconds)
  else
    none

/-- `PracticeSession.duration_seconds` (models.py lines 119-123): active
elapsed seconds `(ended_at or now) - started_at - total_paused_seconds`,
floored at zero. -/
def PracticeSession.duration_seconds (s : PracticeSession) (now : Int) : Int :=
  let e := s.ended_at.getD now
  max 0 (e - s.started_at - s.total_paused_seconds)

/-- `PracticeSession.next_question_index` (models.py lines 101-107): the
count of recorded responses if smaller than the question count, else
`None`. -/
def SessionState.next_question_index (st : SessionState) : Option Nat :=
  let answered := st.responses.length
  let total := st.questions.length
  if answered ≥ total then none else some answered

/-- `PracticeSession.is_complete` (models.py lines 109-110). -/
def SessionState.is_complete (st : SessionState) : Bool :=
  st.next_question_index.isNone

/-- The three timer actions the `practice_session` view accepts via the
`action` GET parameter. -/
inductive TimerAction
  | pause
  | resume
  | endTimer
deriving DecidableEq, Repr

/-- The timer-controls block of the `practice_session` view (views.py lines
73-88) as a pure state transformer: the `apply_action` interface of the
session timer.  Gated on `not session.ended_at and session.timer_enabled`;
`pause` sets `paused_at = now` unconditionally, `resume` acts only when
`paused_at` is set, `end_timer` sets `ended_at = now`. -/
def applyAction (s : PracticeSession) (a : TimerAction) (now : Int) : PracticeSession :=
  if s.ended_at = none ∧ s.timer_enabled = true then
    match a with
    | .pause => { s with paused_at := some now }
    | .resume =>
      match s.paused_at with
      | some p =>
        { s with total_paused_seconds := s.total_paused_seconds + (now - p), paused_at := none }
      | none => s
    | .endTimer => { s with ended_at := some now }
  else
    s

/-- A Unicode decimal digit (category Nd) as accepted by Python `int()`,
with its value.  Modelled over the decimal blocks exercised here — ASCII
`0`-`9` and Arabic-Indic `٠`-`٩` (U+0660-0669); the remaining Nd blocks
behave identically. -/
def py_int_digit (c : Char) : Option Nat :=
  if '0' ≤ c ∧ c ≤ '9' then some (c.toNat - 48)
  else if 0x660 ≤ c.toNat ∧ c.toNat ≤ 0x669 then some (c.toNat - 0x660)
  else none

/-- The Python `str.isdigit()` character property: decimal digits plus
digit-typed characters that are not decimal, such as the superscripts
`¹ ² ³` (U+00B9, U+00B2, U+00B3) and `⁰`-`⁹` (U+2070-2079), which
`int()` rejects. -/
def py_char_isdigit (c : Char) : Bool :=
  (py_int_digit c).isSome || c = '¹' || c = '²' || c = '³' ||
    (0x2070 ≤ c.toNat ∧ c.toNat ≤ 0x2079)

/-- Python `int()` on a string of digit-property characters: the base-10
value when every character is a decimal digit, `none` (a `ValueError`)
otherwise. -/
def py_int_of_chars (l : List Char) : Option Nat :=
  l.foldl
    (fun acc c =>
      match acc, py_int_digit c with
      | some a, some d => some (10 * a + d)
      | _, _ => none)
    (some 0)

/-- Python `str.strip()`: drop whitespace from both ends (working over the
character list of the string). -/
def py_strip (s : String) : String :=
  ⟨((s.data.dropWhile Char.isWhitespace).reverse.dropWhile Char.isWhitespace).reverse⟩

/-- The self-rating sanitisation of the POST branch (views.py lines
124-129): `None` when the raw string is empty or fails `isdigit()`;
otherwise `int()` is applied — it raises `ValueError` (`Except.error`) on
digit-property strings that are not decimal, e.g. `"²"`, aborting the
request before anything is stored; an in-range value 1-5 is kept, any
other value is dropped. -/
def parse_self_rating (raw : String) : Except Unit (Option Nat) :=
  if raw.data ≠ [] ∧ raw.data.all py_char_isdigit then
    match py_int_of_chars raw.data with
    | some r => .ok (if 1 ≤ r ∧ r ≤ 5 then some r else none)
    | none => .error ()
  else
    .ok none

/-- `PracticeResponse.objects.update_or_create(session=..., question=...,
defaults=...)` restricted to one session (views.py lines 130-135, with the
`unique_together [['session', 'question']]` key of models.py line 157):
update the existing row for the question in place, or append a new row. -/
def update_or_create (rs : List PracticeResponse) (q : Nat) (text : String)
    (rating : Option Nat) : List PracticeResponse :=
  if rs.any (fun r => r.question = q) then
    rs.map fun r =>
      if r.question = q then { r with response_text := text, self_rating := rating } else r
  else
    rs ++ [⟨q, text, rating⟩]

/-- What one request to the `practice_session` view renders: a redirect
(after a mutation), the completion page (with its `time_ran_out` flag),
the question page at an index, or a server error when an exception
escapes the view. -/
inductive Outcome
  | redirect
  | complete (time_ran_out : Bool)
  | question (idx : Nat)
  | serverError
deriving DecidableEq, Repr

/-- The timed-mode auto-end check (views.py lines 97-103): when a truthy
time limit is configured, the session is not ended and not paused, and
`now >= end_time()`, set `ended_at = end_time()` and redirect.  Returns the
updated state and whether the redirect fired. -/
def timeout_check (st : SessionState) (now : Int) : SessionState × Bool :=
  if truthy st.sess.time_limit_minutes ∧ st.sess.ended_at = none ∧ st.sess.paused_at = none then
    match st.sess.end_time with
    | some et =>
      if now ≥ et then ({ st with sess := { st.sess with ended_at := some et } }, true)
      else (st, false)
    | none => (st, false)
  else
    (st, false)

/-- The `practice_session` view from the auto-end check onward (views.py
lines 97-141), for a non-review request: the timed-mode auto-end, the
completion page with its `time_ran_out` flag, and — on POST (`post` holds
the raw `response_text` and `self_rating` fields) — the response upsert and
the end-of-session transition after the last question. -/
def view_rest (st0 : SessionState) (now : Int) (post : Option (String × String)) :
    SessionState × Outcome :=
  let tc := timeout_check st0 now
  if tc.2 then (tc.1, .redirect)
  else
    let st := tc.1
    let next_idx := st.next_question_index
    if st.sess.ended_at ≠ none ∨ next_idx = none then
      let tro := (truthy st.sess.time_limit_minutes ∧ st.sess.ended_at ≠ none) ∧
        next_idx ≠ none
      (st, .complete tro)
    else
      let i := next_idx.getD 0
      match post with
      | none => (st, .question i)
      | some (text, rating_raw) =>
        let answer := py_strip text
        match parse_self_rating rating_raw with
        | .error _ => (st, .serverError)
        | .ok rating =>
          let q := st.questions.getD i 0
          let st1 : SessionState :=
            { st with responses := update_or_create st.responses q answer rating }
          let st2 : SessionState :=
            if st1.next_question_index = none ∧ st1.sess.ended_at = none then
              { st1 with sess := { st1.sess with ended_at := some now } }
            else st1
          (st2, .redirect)

/-- One inbound request to the `practice_session` view (non-review): a
timer action (`?action=`), a plain GET consulting the state, or a POST
submitting a response (raw `response_text` and `self_rating` strings). -/
inductive Request
  | timerAction (a : TimerAction) (now : Int)
  | consult (now : Int)
  | submit (text : String) (rating : String) (now : Int)
deriving DecidableEq, Repr

/-- The timestamp a request carries. -/
def Request.time : Request → Int
  | .timerAction _ n => n
  | .consult n => n
  | .submit _ _ n => n

/-- One full (non-review) request to the `practice_session` view (views.py
lines 65-161).  The timer-controls block runs first; `pause` and
`end_timer` redirect after mutating, `resume` redirects only when the
session is paused and otherwise falls through, like an ignored action, to
the rest of the view. -/
def practice_session_step (st : SessionState) (req : Request) : SessionState × Outcome :=
  match req with
  | .timerAction a now =>
    if st.sess.ended_at = none ∧ st.sess.timer_enabled = true then
      match a with
      | .pause =>
        ({ st with sess := { st.sess with paused_at := some now } }, .redirect)
      | .resume =>
        match st.sess.paused_at with
        | some p =>
          ({ st with sess := { st.sess with
              total_paused_seconds := st.sess.total_paused_seconds + (now - p),
              paused_at := none } }, .redirect)
        | none => view_rest st now none
      | .endTimer =>
        ({ st with sess := { st.sess with ended_at := some now } }, .redirect)
    else
      view_rest st now none
  | .consult now => view_rest st now none
  | .submit text rating now => view_rest st now (some (text, rating))

/-- A sequence of requests processed one after the other. -/
def run (st : SessionState) : List Request → SessionState
  | [] => st
  | r :: rest => run (practice_session_step st r).1 rest

/-- Consulting the current state as a browser does: a plain GET, following
at most one redirect (the auto-end check redirects once and the follow-up
GET then renders the completion page). -/
def current_state (st : SessionState) (now : Int) : SessionState × Outcome :=
  let p := view_rest st now none
  match p.2 with
  | .redirect => view_rest p.1 now none
  | _ => p

/-- `timer_enabled` from the `timer` GET parameter of `practice_start`
(views.py line 40): enabled unless the parameter is present and `"0"`. -/
def timer_enabled_of_param (p : Option String) : Bool :=
  (p.getD "1") ≠ "0"

/-- `practice_start` (views.py lines 31-46) over the stored list of
sessions: with an empty question set it only issues a warning redirect;
otherwise it creates a fresh session (null time limit, not ended, not
paused, zero paused seconds) and redirects to it.  Returns the new session
list and whether the empty-set warning fired. -/
def practice_start (sessions : List SessionState) (questions : List Nat)
    (timer_param : Option String) (now : Int) : List SessionState × Bool :=
  if questions = [] then
    (sessions, true)
  else
    (sessions ++ [{ questions := questions
                    responses := []
                    sess := { started_at := now
                              time_limit_minutes := none
                              ended_at := none
                              paused_at := none
                              total_paused_seconds := 0
                              timer_enabled := timer_enabled_of_param timer_param } }],
     false)

/-- Whether a question has a recorded response in the session. -/
def SessionState.answered (st : SessionState) (q : Nat) : Bool :=
  st.responses.any fun r => r.question = q

/-- The spec's wording of `next_index()`, for comparison with the code's
count-based `next_question_index`: the 0-based index of the first question
in the set's fixed order that has no recorded response, or `none` when
every question has one. -/
def spec_first_unanswered (answered : Nat → Bool) : List Nat → Option Nat
  | [] => none
  | q :: rest =>
    if answered q then (spec_first_unanswered answered rest).map (· + 1) else some 0

/-- The spec's `next_index()` applied to a session. -/
def spec_next_question_index (st : SessionState) : Option Nat :=
  spec_first_unanswered st.answered st.questions

/-- All request times are at least `t` and non-decreasing along the
list. -/
def TimeOrdered : Int → List Request → Prop
  | _, [] => True
  | t, r :: rest => t ≤ r.time ∧ TimeOrdered r.time rest

/-! ## Helper lemmas -/

/-- A session whose `ended_at` is set renders the completion page and is
left untouched by the rest of the view. -/
theorem view_rest_fst_of_ended (st : SessionState) (now : Int)
    (post : Option (String × String)) (e : Int) (h : st.sess.ended_at = some e) :
    (view_rest st now post).1 = st := by
  simp [view_rest, timeout_check, h]

/-- A single request leaves an ended session unchanged. -/
theorem step_fst_of_ended (st : SessionState) (req : Request) (e : Int)
    (h : st.sess.ended_at = some e) : (practice_session_step st req).1 = st := by
  cases req with
  | timerAction a now =>
    simp only [practice_session_step, h]
    simpa using view_rest_fst_of_ended st now none e h
  | consult now => exact view_rest_fst_of_ended st now none e h
  | submit text rating now => exact view_rest_fst_of_ended st now (some (text, rating)) e h

/-- Every record the upsert leaves for the targeted question carries the
text and the rating the upsert was given. -/
theorem update_or_create_stored (rating : Option Nat) (rs : List PracticeResponse)
    (q : Nat) (text : String) (r : PracticeResponse)
    (hmem : r ∈ update_or_create rs q text rating) (hq : r.question = q) :
    r.response_text = text ∧ r.self_rating = rating := by
  unfold update_or_create at hmem
  by_cases hany : rs.any (fun x => x.question = q)
  · simp only [hany, if_pos] at hmem
    rcases List.mem_map.mp hmem with ⟨x, _, hx⟩
    by_cases hxq : x.question = q
    · simp only [hxq, if_pos] at hx
      subst hx; exact ⟨rfl, rfl⟩
    · simp only [hxq, if_neg, if_false] at hx
      subst hx; exact absurd hq hxq
  · simp only [hany, if_neg, Bool.false_eq_true, not_false_eq_true, List.mem_append,
      List.mem_singleton] at hmem
    rcases hmem with hmem | hmem
    · exact absurd (List.any_eq_true.mpr ⟨r, hmem, decide_eq_true hq⟩) hany
    · subst hmem; exact ⟨rfl, rfl⟩

/-- The upsert leaves the question column of the response list unchanged
when a record for the question already exists. -/
theorem update_or_create_questions (rs : List PracticeResponse) (q : Nat)
    (text : String) (rating : Option Nat)
    (hany : rs.any (fun r => r.question = q) = true) :
    (update_or_create rs q text rating).map PracticeResponse.question =
      rs.map PracticeResponse.question := by
  unfold update_or_create
  simp only [hany, if_pos]
  simp only [List.map_map, List.map_inj_left, Function.comp_apply]
  intro a _
  by_cases ha : a.question = q <;> simp [ha]

/-- The length of the upsert result: unchanged when a record exists,
one more otherwise. -/
theorem update_or_create_length (rs : List PracticeResponse) (q : Nat)
    (text : String) (rating : Option Nat) :
    (update_or_create rs q text rating).length =
      if rs.any (fun r => r.question = q) then rs.length else rs.length + 1 := by
  unfold update_or_create
  split <;> simp

/-- A question is `answered` exactly when it occurs in the question column
of the response list. -/
theorem answered_iff_mem_map (st : SessionState) (q : Nat) :
    st.answered q = true ↔ q ∈ st.responses.map PracticeResponse.question := by
  simp only [SessionState.answered, List.any_eq_true, List.mem_map, decide_eq_true_eq]

/-- Pointwise-equal answered predicates select the same first-unanswered
index. -/
theorem spec_first_unanswered_congr (f g : Nat → Bool) (qs : List Nat)
    (h : ∀ q ∈ qs, f q = g q) :
    spec_first_unanswered f qs = spec_first_unanswered g qs := by
  induction qs with
  | nil => rfl
  | cons q rest ih =>
    simp only [spec_first_unanswered]
    rw [h q (List.mem_cons_self q rest),
      ih fun q' hq' => h q' (List.mem_cons_of_mem q hq')]

/-- When the answered questions are exactly the first `k` of a
duplicate-free question list, the first unanswered index is `k`, or none
once `k` reaches the length. -/
theorem spec_first_unanswered_of_prefix (qs : List Nat) (k : Nat) (hnd : qs.Nodup) :
    spec_first_unanswered (fun q => decide (q ∈ qs.take k)) qs =
      if qs.length ≤ k then none else some k := by
  induction qs generalizing k with
  | nil => simp [spec_first_unanswered]
  | cons q rest ih =>
    rcases k with _ | k'
    · simp [spec_first_unanswered]
    · have hq : q ∉ rest := (List.nodup_cons.mp hnd).1
      have hrest : rest.Nodup := (List.nodup_cons.mp hnd).2
      simp only [spec_first_unanswered, List.take_succ_cons, List.mem_cons, eq_self_iff_true,
        true_or, decide_True, if_true]
      have hcong := spec_first_unanswered_congr
        (fun x => decide (x = q ∨ x ∈ rest.take k')) (fun x => decide (x ∈ rest.take k')) rest
        (fun x hx => by
          have hxq : x ≠ q := fun he => hq (he ▸ hx)
          simp [hxq])
      rw [hcong, ih k' hrest]
      by_cases hlen : rest.length ≤ k' <;> simp [hlen, Nat.succ_le_succ_iff]

/-- A duplicate-free list contained in another is no longer than it. -/
theorem nodup_subset_length_le (l₁ l₂ : List Nat) (h₁ : l₁.Nodup) (hsub : l₁ ⊆ l₂) :
    l₁.length ≤ l₂.length := by
  calc l₁.length = l₁.toFinset.card := (List.toFinset_card_of_nodup h₁).symm
    _ ≤ l₂.toFinset.card := Finset.card_le_card fun x hx =>
        List.mem_toFinset.mpr (hsub (List.mem_toFinset.mp hx))
    _ ≤ l₂.length := l₂.toFinset_card_le

/-- Under the schema invariants (distinct questions, responses unique per
question and referencing questions of the set), the count-based
`next_question_index` is `none` exactly when every question is
answered. -/
theorem next_none_iff_all_answered (st : SessionState)
    (hq : st.questions.Nodup)
    (hr : (st.responses.map PracticeResponse.question).Nodup)
    (hsub : ∀ r ∈ st.responses, r.question ∈ st.questions) :
    (st.next_question_index = none ↔ ∀ q ∈ st.questions, st.answered q = true) := by
  have hsub' : st.responses.map PracticeResponse.question ⊆ st.questions := by
    intro x hx
    rcases List.mem_map.mp hx with ⟨r, hrmem, hrq⟩
    exact hrq ▸ hsub r hrmem
  have hnone : st.next_question_index = none ↔
      st.questions.length ≤ st.responses.length := by
    simp [SessionState.next_question_index]
  rw [hnone]
  constructor
  · intro hle q hqmem
    rw [answered_iff_mem_map]
    have hcard : (st.responses.map PracticeResponse.question).toFinset =
        st.questions.toFinset := by
      apply Finset.eq_of_subset_of_card_le
      · intro x hx
        exact List.mem_toFinset.mpr (hsub' (List.mem_toFinset.mp hx))
      · rw [List.toFinset_card_of_nodup hq, List.toFinset_card_of_nodup hr]
        simpa using hle
    have : q ∈ (st.responses.map PracticeResponse.question).toFinset := by
      rw [hcard]; exact List.mem_toFinset.mpr hqmem
    exact List.mem_toFinset.mp this
  · intro hall
    have : st.questions ⊆ st.responses.map PracticeResponse.question := by
      intro x hx
      exact (answered_iff_mem_map st x).mp (hall x hx)
    have := nodup_subset_length_le st.questions
      (st.responses.map PracticeResponse.question) hq this
    simpa using this

/-- The view after the timer-controls block never touches `paused_at`,
`total_paused_seconds`, `started_at`, `time_limit_minutes` or
`timer_enabled`. -/
theorem view_rest_sess_fields (st : SessionState) (now : Int)
    (post : Option (String × String)) :
    (view_rest st now post).1.sess.paused_at = st.sess.paused_at ∧
    (view_rest st now post).1.sess.total_paused_seconds = st.sess.total_paused_seconds := by
  unfold view_rest timeout_check
  dsimp only
  repeat' split
  all_goals exact ⟨rfl, rfl⟩

/-- One request can only leave `total_paused_seconds` unchanged or, on a
resume while paused no earlier than the pause instant, increase it; and
any `paused_at` it leaves set is at most the request time. -/
theorem step_tps_mono (st : SessionState) (r : Request) (t0 : Int)
    (hb : ∀ p, st.sess.paused_at = some p → p ≤ t0) (ht : t0 ≤ r.time) :
    st.sess.total_paused_seconds ≤
      (practice_session_step st r).1.sess.total_paused_seconds ∧
    ∀ p, (practice_session_step st r).1.sess.paused_at = some p → p ≤ r.time := by
  have hrest : ∀ now post, t0 ≤ now →
      st.sess.total_paused_seconds ≤ (view_rest st now post).1.sess.total_paused_seconds ∧
      ∀ p, (view_rest st now post).1.sess.paused_at = some p → p ≤ now := by
    intro now post hnow
    obtain ⟨h1, h2⟩ := view_rest_sess_fields st now post
    refine ⟨le_of_eq h2.symm, fun p hp => ?_⟩
    rw [h1] at hp
    exact le_trans (hb p hp) hnow
  cases r with
  | timerAction a now =>
    simp only [Request.time] at ht ⊢
    by_cases hg : st.sess.ended_at = none ∧ st.sess.timer_enabled = true
    · cases a with
      | pause =>
        simp only [practice_session_step, Request.time, if_pos hg]
        exact ⟨le_refl _, fun p hp => by simpa using le_of_eq (Option.some_injective _ hp).symm⟩
      | resume =>
        rcases hpa : st.sess.paused_at with
          _ | p
        · simp only [practice_session_step, Request.time, if_pos hg, hpa]
          exact hrest now none ht
        · simp only [practice_session_step, Request.time, if_pos hg, hpa]
          have := hb p hpa
          exact ⟨by simp; omega, fun p' hp' => by simp at hp'⟩
      | endTimer =>
        simp only [practice_session_step, Request.time, if_pos hg]
        exact ⟨le_refl _, fun p hp => le_trans (hb p hp) ht⟩
    · simp only [practice_session_step, Request.time, if_neg hg]
      cases a <;> exact hrest now none ht
  | consult now => exact hrest now none ht
  | submit text rating now => exact hrest now (some (text, rating)) ht

/-- `total_paused_seconds` is non-decreasing along any time-ordered run. -/
theorem run_tps_mono (reqs : List Request) : ∀ (st : SessionState) (t0 : Int),
    (∀ p, st.sess.paused_at = some p → p ≤ t0) → TimeOrdered t0 reqs →
    st.sess.total_paused_seconds ≤ (run st reqs).sess.total_paused_seconds := by
  induction reqs with
  | nil => intro st t0 _ _; exact le_refl _
  | cons r rest ih =>
    intro st t0 hb ht
    obtain ⟨h1, h2⟩ := ht
    obtain ⟨hmono, hbound⟩ := step_tps_mono st r t0 hb h1
    exact le_trans hmono (ih (practice_session_step st r).1 r.time hbound h2)

/-- The auto-end check either leaves the state alone or fires: it reports
a redirect, requires a truthy limit, and stamps `ended_at` with the
deadline. -/
theorem timeout_check_cases (st : SessionState) (now : Int) :
    timeout_check st now = (st, false) ∨
    ((timeout_check st now).2 = true ∧
      truthy st.sess.time_limit_minutes = true ∧
      ∃ et, st.sess.end_time = some et ∧
        (timeout_check st now).1 =
          { st with sess := { st.sess with ended_at := some et } }) := by
  unfold timeout_check
  by_cases hg : truthy st.sess.time_limit_minutes = true ∧ st.sess.ended_at = none ∧
      st.sess.paused_at = none
  · rcases het : st.sess.end_time with _ | et
    · left; simp [hg, het]
    · by_cases hnow : et ≤ now
      · right
        refine ⟨?_, hg.1, et, rfl, ?_⟩ <;> simp [hg, het, hnow]
      · left; simp [hg, het, hnow]
  · left; simp [hg]

/-- A fired auto-end check makes the view redirect at once. -/
theorem view_rest_eq_redirect_of_fired (st : SessionState) (now : Int)
    (post : Option (String × String)) (hf : (timeout_check st now).2 = true) :
    view_rest st now post = ((timeout_check st now).1, .redirect) := by
  unfold view_rest
  simp [hf]

/-- With the auto-end check idle, an ended-or-complete session renders the
completion page with the code's `time_ran_out` flag. -/
theorem view_rest_eq_complete (st : SessionState) (now : Int)
    (post : Option (String × String))
    (htc : timeout_check st now = (st, false))
    (hcomp : st.sess.ended_at ≠ none ∨ st.next_question_index = none) :
    view_rest st now post = (st, .complete (decide
      ((truthy st.sess.time_limit_minutes = true ∧ st.sess.ended_at ≠ none) ∧
        st.next_question_index ≠ none))) := by
  unfold view_rest
  rw [htc]
  simp only [if_pos hcomp]
  simp

/-- An ended session always renders the completion page. -/
theorem view_rest_eq_complete_of_ended (st : SessionState) (now : Int)
    (post : Option (String × String)) (e : Int) (h : st.sess.ended_at = some e) :
    view_rest st now post = (st, .complete (decide
      ((truthy st.sess.time_limit_minutes = true ∧ st.sess.ended_at ≠ none) ∧
        st.next_question_index ≠ none))) := by
  have htc : timeout_check st now = (st, false) := by
    unfold timeout_check; simp [h]
  exact view_rest_eq_complete st now post htc (Or.inl (by simp [h]))

/-- With the auto-end check idle, a running incomplete session renders the
next question. -/
theorem view_rest_eq_question (st : SessionState) (now : Int)
    (htc : timeout_check st now = (st, false))
    (hE : st.sess.ended_at = none) (hn : st.next_question_index ≠ none) :
    view_rest st now none = (st, .question (st.next_question_index.getD 0)) := by
  unfold view_rest
  rw [htc]
  simp [hE, hn]

/-! ## Claims -/

/-- C1: for a session with a configured time limit that is neither ended
nor paused, consulting the state at or past the deadline
`started_at + time_limit_minutes·60 + total_paused_seconds` ends the
session with `ended_at` set exactly to that deadline (not to `now`). -/
theorem c1_timeout_ends_at_deadline (st : SessionState) (now : Int) (L : Nat)
    (hL : st.sess.time_limit_minutes = some L) (hL0 : 0 < L)
    (hE : st.sess.ended_at = none) (hP : st.sess.paused_at = none)
    (hnow : st.sess.started_at + 60 * (L : Int) + st.sess.total_paused_seconds ≤ now) :
    (practice_session_step st (.consult now)).1.sess.ended_at =
      some (st.sess.started_at + 60 * (L : Int) + st.sess.total_paused_seconds) ∧
    (practice_session_step st (.consult now)).2 = .redirect := by
  have htr : truthy (some L) = true := by
    simpa [truthy] using Nat.pos_iff_ne_zero.mp hL0
  have het : st.sess.end_time =
      some (st.sess.started_at + 60 * (L : Int) + st.sess.total_paused_seconds) := by
    simp [PracticeSession.end_time, hL, htr]
  simp [practice_session_step, view_rest, timeout_check, hL, htr, hE, hP, het, hnow]

/-- C1 witness: a 5-minute session started at 0 consulted at 301 ends at
exactly 300. -/
theorem c1_timeout_ends_at_deadline_witness :
    (practice_session_step ⟨[7, 8, 9], [], ⟨0, some 5, none, none, 0, true⟩⟩
        (.consult 301)).1.sess.ended_at = some 300 ∧
    (practice_session_step ⟨[7, 8, 9], [], ⟨0, some 5, none, none, 0, true⟩⟩
        (.consult 301)).2 = .redirect := by
  have h := c1_timeout_ends_at_deadline ⟨[7, 8, 9], [], ⟨0, some 5, none, none, 0, true⟩⟩
    301 5 rfl (by decide) rfl rfl (by decide)
  simpa using h

/-- C2 counterexample: pausing an already-paused session is not a no-op —
a second `pause` at a later instant overwrites `paused_at`, so the state
after pause-then-pause differs from the state after a single pause. -/
theorem c2_pause_not_idempotent_counterexample :
    applyAction (applyAction ⟨0, some 5, none, none, 0, true⟩ .pause 10) .pause 20 ≠
      applyAction ⟨0, some 5, none, none, 0, true⟩ .pause 10 := by
  decide

/-- C2 amended: resume twice equals resume once and end twice equals end
once; resuming a non-paused session is a no-op, and on an ended session
every action is a no-op; pause twice at the same instant equals pause
once, but pausing an already-paused (running, timer-enabled) session is
not a no-op: it overwrites `paused_at` with the new current time. -/
theorem c2_amended_idempotence (s : PracticeSession) (t1 t2 : Int) (a : TimerAction) :
    applyAction (applyAction s .resume t1) .resume t2 = applyAction s .resume t1 ∧
    applyAction (applyAction s .endTimer t1) .endTimer t2 = applyAction s .endTimer t1 ∧
    applyAction (applyAction s .pause t1) .pause t1 = applyAction s .pause t1 ∧
    (s.paused_at = none → applyAction s .resume t1 = s) ∧
    (∀ e, s.ended_at = some e → applyAction s a t1 = s) ∧
    (∀ p, s.paused_at = some p → s.ended_at = none → s.timer_enabled = true →
      applyAction s .pause t1 = { s with paused_at := some t1 }) := by
  obtain ⟨sa, tl, ea, pa, tp, te⟩ := s
  refine ⟨?_, ?_, ?_, ?_, ?_, ?_⟩
  · cases ea <;> cases pa <;> cases te <;> simp [applyAction]
  · cases ea <;> cases te <;> simp [applyAction]
  · cases ea <;> cases te <;> simp [applyAction]
  · intro h; cases ea <;> cases te <;> simp_all [applyAction]
  · intro e he; cases a <;> simp_all [applyAction]
  · intro p hp he hte; simp_all [applyAction]

/-- C2 amended witness: the no-op clauses instantiated on a paused and on
an ended session. -/
theorem c2_amended_idempotence_witness :
    applyAction ⟨0, some 5, none, none, 0, true⟩ .resume 7 =
      ⟨0, some 5, none, none, 0, true⟩ ∧
    applyAction ⟨0, some 5, some 30, none, 0, true⟩ .pause 7 =
      ⟨0, some 5, some 30, none, 0, true⟩ ∧
    applyAction ⟨0, some 5, none, some 4, 0, true⟩ .pause 7 =
      ⟨0, some 5, none, some 7, 0, true⟩ := by
  refine ⟨?_, ?_, ?_⟩
  · exact (c2_amended_idempotence ⟨0, some 5, none, none, 0, true⟩ 7 7 .pause).2.2.2.1 rfl
  · exact (c2_amended_idempotence ⟨0, some 5, some 30, none, 0, true⟩ 7 7 .pause).2.2.2.2.1
      30 rfl
  · exact (c2_amended_idempotence ⟨0, some 5, none, some 4, 0, true⟩ 7 7 .pause).2.2.2.2.2
      4 rfl rfl rfl

/-- C3: resubmitting a response for an already-answered question
overwrites the stored text (and rating) in place — same number of records,
same question column, `next_question_index` unchanged; and a submission
whose self-rating parse does not raise (so a response is actually
recorded) that answers the last remaining question sets `ended_at` to
the recording time when it was previously unset. -/
theorem c3_upsert_and_auto_end (rs : List PracticeResponse) (q : Nat) (text : String)
    (rating : Option Nat) (st : SessionState) (body rating_raw : String) (now : Int) :
    ((rs.any fun r => r.question = q) = true →
      (update_or_create rs q text rating).length = rs.length ∧
      (update_or_create rs q text rating).map PracticeResponse.question =
        rs.map PracticeResponse.question ∧
      (∀ r ∈ update_or_create rs q text rating, r.question = q →
        r.response_text = text ∧ r.self_rating = rating) ∧
      ∀ qs sess, SessionState.next_question_index ⟨qs, update_or_create rs q text rating, sess⟩ =
        SessionState.next_question_index ⟨qs, rs, sess⟩) ∧
    (parse_self_rating rating_raw = .ok rating →
      st.sess.ended_at = none →
      timeout_check st now = (st, false) →
      st.responses.length + 1 = st.questions.length →
      (st.responses.any fun r =>
        r.question = st.questions.getD st.responses.length 0) = false →
      (practice_session_step st (.submit body rating_raw now)).1.sess.ended_at = some now) := by
  constructor
  · intro hany
    have hlen := update_or_create_length rs q text rating
    rw [if_pos hany] at hlen
    refine ⟨hlen, update_or_create_questions rs q text rating hany,
      fun r hmem hq => update_or_create_stored rating rs q text r hmem hq, fun qs sess => ?_⟩
    simp [SessionState.next_question_index, hlen]
  · intro hok hE htc hlast hany
    have hlt : st.responses.length < st.questions.length := by omega
    have hni : st.next_question_index = some st.responses.length := by
      simp [SessionState.next_question_index, Nat.not_le.mpr hlt]
    have hlen := update_or_create_length st.responses (st.questions.getD st.responses.length 0)
      (py_strip body) rating
    rw [hany] at hlen
    simp only [if_neg Bool.false_ne_true] at hlen
    simp only [practice_session_step, view_rest, htc]
    simp only [hE, hni, hok]
    simp only [SessionState.next_question_index]
    have hlen' : (update_or_create st.responses (st.questions[st.responses.length]?.getD 0)
        (py_strip body) rating).length = st.responses.length + 1 := by
      simpa using hlen
    simp [hlen', hE, Nat.le_of_eq hlast.symm]

/-- C3 witness: resubmission to a one-record list keeps one record, and
answering the last question of a two-question set at time 50 sets
`ended_at = 50`. -/
theorem c3_upsert_and_auto_end_witness :
    (update_or_create [⟨5, "old", none⟩] 5 "new" none).length = 1 ∧
    (practice_session_step ⟨[7, 8], [⟨7, "a", none⟩], ⟨0, none, none, none, 0, true⟩⟩
        (.submit "b" "" 50)).1.sess.ended_at = some 50 := by
  have h := c3_upsert_and_auto_end [⟨5, "old", none⟩] 5 "new" none
    ⟨[7, 8], [⟨7, "a", none⟩], ⟨0, none, none, none, 0, true⟩⟩ "b" "" 50
  exact ⟨(h.1 (by decide)).1, h.2 rfl rfl (by decide) (by decide) (by decide)⟩

/-- C4 counterexample: `next_question_index` counts responses instead of
scanning for the first unanswered question — with questions `[7, 8]` and a
single response to question `8`, the code returns index 1 while the first
question without a response sits at index 0. -/
theorem c4_count_vs_first_unanswered_counterexample :
    SessionState.next_question_index
        ⟨[7, 8], [⟨8, "x", none⟩], ⟨0, none, none, none, 0, true⟩⟩ = some 1 ∧
    spec_next_question_index
        ⟨[7, 8], [⟨8, "x", none⟩], ⟨0, none, none, none, 0, true⟩⟩ = some 0 ∧
    SessionState.next_question_index
        ⟨[7, 8], [⟨8, "x", none⟩], ⟨0, none, none, none, 0, true⟩⟩ ≠
      spec_next_question_index
        ⟨[7, 8], [⟨8, "x", none⟩], ⟨0, none, none, none, 0, true⟩⟩ := by
  refine ⟨rfl, rfl, ?_⟩
  decide

/-- C4 amended: `next_question_index()` returns the count of recorded
responses when it is below the question count, else none; `is_complete()`
is true iff it is none; when the responses answer exactly a prefix of the
(duplicate-free) question order — as the submission flow maintains — the
count equals the index of the first unanswered question; and under the
schema invariants it is none exactly when every question has a
response. -/
theorem c4_amended_next_index (st : SessionState)
    (hq : st.questions.Nodup)
    (hr : (st.responses.map PracticeResponse.question).Nodup)
    (hsub : ∀ r ∈ st.responses, r.question ∈ st.questions) :
    st.next_question_index =
      (if st.questions.length ≤ st.responses.length then none
       else some st.responses.length) ∧
    (st.is_complete = true ↔ st.next_question_index = none) ∧
    (st.responses.map PracticeResponse.question =
        st.questions.take st.responses.length →
      st.next_question_index = spec_next_question_index st) ∧
    (st.next_question_index = none ↔ ∀ q ∈ st.questions, st.answered q = true) := by
  refine ⟨?_, ?_, ?_, next_none_iff_all_answered st hq hr hsub⟩
  · simp [SessionState.next_question_index]
  · simp [SessionState.is_complete, Option.isNone_iff_eq_none]
  · intro hpre
    have hans : ∀ q ∈ st.questions,
        st.answered q = decide (q ∈ st.questions.take st.responses.length) := by
      intro q _
      rcases hb : st.answered q with _ | _
      · have : q ∉ st.responses.map PracticeResponse.question := fun hmem =>
          by rw [(answered_iff_mem_map st q).mpr hmem] at hb; cases hb
        rw [hpre] at this
        simp [this]
      · have := (answered_iff_mem_map st q).mp hb
        rw [hpre] at this
        simp [this]
    have hcong := spec_first_unanswered_congr st.answered
      (fun q => decide (q ∈ st.questions.take st.responses.length)) st.questions hans
    rw [spec_next_question_index, hcong,
      spec_first_unanswered_of_prefix st.questions st.responses.length hq]
    simp [SessionState.next_question_index]

/-- C4 amended witness: questions `[7, 8]` with question 7 answered — the
code's index and the first-unanswered index agree at 1. -/
theorem c4_amended_next_index_witness :
    SessionState.next_question_index
        ⟨[7, 8], [⟨7, "a", none⟩], ⟨0, none, none, none, 0, true⟩⟩ =
      spec_next_question_index
        ⟨[7, 8], [⟨7, "a", none⟩], ⟨0, none, none, none, 0, true⟩⟩ := by
  exact (c4_amended_next_index ⟨[7, 8], [⟨7, "a", none⟩], ⟨0, none, none, none, 0, true⟩⟩
    (by decide) (by decide) (by decide)).2.2.1 (by decide)

/-- C5: `duration_seconds` is `(ended_at or now) - started_at -
total_paused_seconds` floored at zero, and a session ended exactly at its
deadline `started_at + 60·L + total_paused_seconds` reports a duration of
exactly `60·L` seconds. -/
theorem c5_duration_formula (s : PracticeSession) (now : Int) (L : Nat) :
    s.duration_seconds now =
      max 0 ((s.ended_at.getD now) - s.started_at - s.total_paused_seconds) ∧
    (s.ended_at = some (s.started_at + 60 * (L : Int) + s.total_paused_seconds) →
      s.duration_seconds now = 60 * (L : Int)) := by
  refine ⟨rfl, fun h => ?_⟩
  simp only [PracticeSession.duration_seconds, h, Option.getD_some]
  omega

/-- C5 witness: a 5-minute session started at 0 ended at 330 with 30
paused seconds reports exactly 300 seconds. -/
theorem c5_duration_formula_witness :
    PracticeSession.duration_seconds ⟨0, some 5, some 330, none, 30, true⟩ 400 = 300 := by
  have h := (c5_duration_formula ⟨0, some 5, some 330, none, 30, true⟩ 400 5).2 (by decide)
  simpa using h

/-- C6: across any time-ordered sequence of requests, starting from a
state whose pause instant (if any) is not in the future,
`total_paused_seconds` never decreases; and a single request changes it
only on a resume of a paused session, which adds `now - paused_at` and
clears `paused_at`. -/
theorem c6_total_paused_monotone (st : SessionState) (reqs : List Request) (t0 : Int)
    (hb : ∀ p, st.sess.paused_at = some p → p ≤ t0)
    (ht : TimeOrdered t0 reqs) :
    st.sess.total_paused_seconds ≤ (run st reqs).sess.total_paused_seconds ∧
    ∀ s r, (practice_session_step s r).1.sess.total_paused_seconds ≠
        s.sess.total_paused_seconds →
      ∃ now p, r = .timerAction .resume now ∧ s.sess.paused_at = some p ∧
        (practice_session_step s r).1.sess.paused_at = none ∧
        (practice_session_step s r).1.sess.total_paused_seconds =
          s.sess.total_paused_seconds + (now - p) := by
  refine ⟨run_tps_mono reqs st t0 hb ht, fun s r hne => ?_⟩
  cases r with
  | timerAction a now =>
    by_cases hg : s.sess.ended_at = none ∧ s.sess.timer_enabled = true
    · cases a with
      | pause => simp [practice_session_step, if_pos hg] at hne
      | resume =>
        rcases hpa : s.sess.paused_at with _ | p
        · rw [show practice_session_step s (.timerAction .resume now) = view_rest s now none
            from by simp [practice_session_step, if_pos hg, hpa]] at hne
          exact absurd (view_rest_sess_fields s now none).2 hne
        · refine ⟨now, p, rfl, ?_, ?_, ?_⟩ <;>
            simp [practice_session_step, if_pos hg, hpa]
      | endTimer => simp [practice_session_step, if_pos hg] at hne
    · rw [show practice_session_step s (.timerAction a now) = view_rest s now none
        from by cases a <;> simp [practice_session_step, if_neg hg]] at hne
      exact absurd (view_rest_sess_fields s now none).2 hne
  | consult now => exact absurd (view_rest_sess_fields s now none).2 hne
  | submit text rating now =>
    exact absurd (view_rest_sess_fields s now (some (text, rating))).2 hne

/-- C6 witness: pause at 10 and resume at 40 accumulate exactly 30 paused
seconds, and the monotonicity theorem applies to that trace. -/
theorem c6_total_paused_monotone_witness :
    (run ⟨[7], [], ⟨0, some 5, none, none, 0, true⟩⟩
        [.timerAction .pause 10, .timerAction .resume 40]).sess.total_paused_seconds = 30 ∧
    (⟨[7], [], ⟨0, some 5, none, none, 0, true⟩⟩ :
        SessionState).sess.total_paused_seconds ≤
      (run ⟨[7], [], ⟨0, some 5, none, none, 0, true⟩⟩
        [.timerAction .pause 10, .timerAction .resume 40]).sess.total_paused_seconds := by
  refine ⟨by decide, ?_⟩
  exact (c6_total_paused_monotone ⟨[7], [], ⟨0, some 5, none, none, 0, true⟩⟩
    [.timerAction .pause 10, .timerAction .resume 40] 0
    (fun p hp => by cases hp) (by simp [TimeOrdered, Request.time])).1

/-- C7: consulting the state presents the session as complete iff all
questions are answered or the session has ended (the auto-end check
included); and the presented `time_ran_out` flag is true iff the session
has a (truthy) time limit, `ended_at` is set, and at least one question is
unanswered — in particular it is false when every question was
answered. -/
theorem c7_complete_and_time_ran_out (st : SessionState) (now : Int)
    (hq : st.questions.Nodup)
    (hr : (st.responses.map PracticeResponse.question).Nodup)
    (hsub : ∀ r ∈ st.responses, r.question ∈ st.questions) :
    ((∃ b, (current_state st now).2 = Outcome.complete b) ↔
      ((current_state st now).1.sess.ended_at ≠ none ∨
        ∀ q ∈ st.questions, st.answered q = true)) ∧
    ((current_state st now).2 = Outcome.complete true ↔
      (truthy st.sess.time_limit_minutes = true ∧
        (current_state st now).1.sess.ended_at ≠ none ∧
        ∃ q ∈ st.questions, st.answered q = false)) := by
  have hiff := next_none_iff_all_answered st hq hr hsub
  have hnot : st.next_question_index ≠ none ↔
      ∃ q ∈ st.questions, st.answered q = false := by
    rw [Ne, hiff]
    push_neg
    constructor
    · rintro ⟨q, hqm, hqa⟩; exact ⟨q, hqm, by simpa using hqa⟩
    · rintro ⟨q, hqm, hqa⟩; exact ⟨q, hqm, by simp [hqa]⟩
  rcases timeout_check_cases st now with htc | ⟨hf, htr, et, het, htc1⟩
  · by_cases hE : st.sess.ended_at = none
    · by_cases hn : st.next_question_index = none
      · have hv := view_rest_eq_complete st now none htc (Or.inr hn)
        have hcs : current_state st now = (st, .complete (decide
            ((truthy st.sess.time_limit_minutes = true ∧ st.sess.ended_at ≠ none) ∧
              st.next_question_index ≠ none))) := by
          unfold current_state
          rw [hv]
        rw [hcs]
        constructor
        · exact ⟨fun _ => Or.inr (hiff.mp hn), fun _ => ⟨_, rfl⟩⟩
        · simp [hE]
      · have hv := view_rest_eq_question st now htc hE hn
        have hcs : current_state st now = (st, .question (st.next_question_index.getD 0)) := by
          unfold current_state
          rw [hv]
        rw [hcs]
        constructor
        · constructor
          · rintro ⟨b, hb⟩
            cases hb
          · rintro (hend | hall)
            · exact absurd hE hend
            · exact absurd (hiff.mpr hall) hn
        · simp [hE]
    · rcases Option.ne_none_iff_exists'.mp hE with ⟨e, he⟩
      have hv := view_rest_eq_complete_of_ended st now none e he
      have hcs : current_state st now = (st, .complete (decide
          ((truthy st.sess.time_limit_minutes = true ∧ st.sess.ended_at ≠ none) ∧
            st.next_question_index ≠ none))) := by
        unfold current_state
        rw [hv]
      rw [hcs]
      constructor
      · simp [he]
      · simp only [Outcome.complete.injEq, decide_eq_true_eq, he]
        rw [hnot]
        simp
  · have h1 := view_rest_eq_redirect_of_fired st now none hf
    have hend1 : (timeout_check st now).1.sess.ended_at = some et := by rw [htc1]
    have h2 := view_rest_eq_complete_of_ended (timeout_check st now).1 now none et hend1
    have hfields : (timeout_check st now).1.sess.time_limit_minutes =
        st.sess.time_limit_minutes ∧
        (timeout_check st now).1.next_question_index = st.next_question_index := by
      rw [htc1]; exact ⟨rfl, rfl⟩
    have hcs : current_state st now = ((timeout_check st now).1, .complete (decide
        ((truthy (timeout_check st now).1.sess.time_limit_minutes = true ∧
            (timeout_check st now).1.sess.ended_at ≠ none) ∧
          (timeout_check st now).1.next_question_index ≠ none))) := by
      unfold current_state
      rw [h1]
      simpa using h2
    rw [hcs]
    constructor
    · simp [hend1]
    · simp only [Outcome.complete.injEq, decide_eq_true_eq, hend1, hfields.1, hfields.2]
      rw [hnot]
      simp [htr]

/-- C7 witness: a 5-minute two-question session with no answers, consulted
at 301 seconds, is presented as complete with `time_ran_out = true`. -/
theorem c7_complete_and_time_ran_out_witness :
    (current_state ⟨[7, 8], [], ⟨0, some 5, none, none, 0, true⟩⟩ 301).2 =
      Outcome.complete true := by
  refine (c7_complete_and_time_ran_out ⟨[7, 8], [], ⟨0, some 5, none, none, 0, true⟩⟩ 301
    (by decide) (by decide) (by decide)).2.mpr ⟨rfl, ?_, 7, by decide, rfl⟩
  decide

/-- C8: once `ended_at` is set the session is frozen — no sequence of
further requests (timer actions, consultations, submissions) changes the
session, its responses or its questions. -/
theorem c8_ended_is_terminal (st : SessionState) (e : Int)
    (h : st.sess.ended_at = some e) (reqs : List Request) : run st reqs = st := by
  induction reqs with
  | nil => rfl
  | cons r rest ih =>
    show run (practice_session_step st r).1 rest = st
    rw [step_fst_of_ended st r e h]
    exact ih

/-- C8 witness: an ended session survives a pause, a consultation and a
submission untouched. -/
theorem c8_ended_is_terminal_witness :
    run ⟨[7, 8], [], ⟨0, some 5, some 300, none, 0, true⟩⟩
      [.timerAction .pause 400, .consult 500, .submit "late" "3" 600] =
    ⟨[7, 8], [], ⟨0, some 5, some 300, none, 0, true⟩⟩ :=
  c8_ended_is_terminal ⟨[7, 8], [], ⟨0, some 5, some 300, none, 0, true⟩⟩ 300 rfl
    [.timerAction .pause 400, .consult 500, .submit "late" "3" 600]

/-- C9 counterexample: the self-rating `"²"` is not a number `int()` can
read, yet the submission does not succeed — `isdigit()` is true, `int()`
raises `ValueError`, and the request dies with a server error before
anything is stored, instead of the rating being silently discarded. -/
theorem c9_rating_crash_counterexample :
    parse_self_rating "²" = .error () ∧
    practice_session_step ⟨[7, 8], [], ⟨0, none, none, none, 0, true⟩⟩
        (.submit "a" "²" 50) =
      (⟨[7, 8], [], ⟨0, none, none, none, 0, true⟩⟩, .serverError) := by
  exact ⟨rfl, rfl⟩

/-- C9 amended: a self-rating raw string that is empty or fails
`isdigit()`, or whose `int()` value lies outside 1..5, is silently
discarded — the parse yields `None` and the stored record carries no
rating; but a raw string of digit-property characters that are not
decimal digits (such as `"²"`) makes `int()` raise, aborting the request
with a server error before any response is stored. -/
theorem c9_amended_bad_rating (raw : String) :
    (¬(raw.data ≠ [] ∧ raw.data.all py_char_isdigit = true) →
      parse_self_rating raw = .ok none) ∧
    (∀ r, py_int_of_chars raw.data = some r → (r < 1 ∨ 5 < r) →
      parse_self_rating raw = .ok none) ∧
    (∀ rs q text x, x ∈ update_or_create rs q text none → x.question = q →
      x.self_rating = none) ∧
    (parse_self_rating raw = .error () →
      ∀ st text now,
        (practice_session_step st (.submit text raw now)).1.responses =
          st.responses) := by
  refine ⟨?_, ?_, ?_, ?_⟩
  · intro h
    unfold parse_self_rating
    rw [if_neg h]
  · intro r hr hout
    unfold parse_self_rating
    split
    · rw [hr]
      have : ¬(1 ≤ r ∧ r ≤ 5) := by omega
      simp [this]
    · rfl
  · exact fun rs q text x hmem hq => (update_or_create_stored none rs q text x hmem hq).2
  · intro herr st text now
    show (view_rest st now (some (text, raw))).1.responses = st.responses
    unfold view_rest timeout_check
    dsimp only
    repeat' split
    all_goals simp_all

/-- C9 amended witness: the rating "9" is discarded and stored absent,
while the rating "²" crashes the request, leaving the responses of a
running one-question session untouched. -/
theorem c9_amended_bad_rating_witness :
    parse_self_rating "9" = .ok none ∧
    PracticeResponse.self_rating ⟨3, "ans", none⟩ = none ∧
    (practice_session_step ⟨[7], [], ⟨0, none, none, none, 0, true⟩⟩
        (.submit "a" "²" 50)).1.responses = [] := by
  refine ⟨(c9_amended_bad_rating "9").2.1 9 (by decide) (by decide), ?_, ?_⟩
  · have hmem : (⟨3, "ans", none⟩ : PracticeResponse) ∈ update_or_create [] 3 "ans" none := by
      simp [update_or_create]
    exact (c9_amended_bad_rating "9").2.2.1 [] 3 "ans" _ hmem rfl
  · exact (c9_amended_bad_rating "²").2.2.2 rfl
      ⟨[7], [], ⟨0, none, none, none, 0, true⟩⟩ "a" 50

/-- C10: starting a practice session on an empty question set creates no
session and only fires the warning redirect; on a non-empty set exactly
one new session is appended, started now, untimed, not ended, not paused,
with zero paused seconds. -/
theorem c10_empty_set_creates_nothing (sessions : List SessionState)
    (questions : List Nat) (p : Option String) (now : Int) :
    (questions = [] → practice_start sessions questions p now = (sessions, true)) ∧
    (questions ≠ [] →
      (practice_start sessions questions p now).2 = false ∧
      (practice_start sessions questions p now).1 =
        sessions ++ [⟨questions, [],
          ⟨now, none, none, none, 0, timer_enabled_of_param p⟩⟩]) := by
  constructor
  · intro h; simp [practice_start, h]
  · intro h; simp [practice_start, h]

/-- C10 witness: instantiated on an empty and on a one-question set. -/
theorem c10_empty_set_creates_nothing_witness :
    practice_start [] [] none 5 = ([], true) ∧
    (practice_start [] [7] none 5).2 = false := by
  refine ⟨(c10_empty_set_creates_nothing [] [] none 5).1 rfl, ?_⟩
  exact ((c10_empty_set_creates_nothing [] [7] none 5).2 (by decide)).1

end Practice
